import Mathlib

/-!
Verification development for the fullapplms repository.

Embedded here:
* `backend/entrypoint.sh` — the migration retry loop, collectstatic and
  Gunicorn startup (modelled over an arbitrary stream of migrate outcomes);
* `student/src/components/CustomVideoPlayer.js` — `formatTime`,
  `handleSkipForward`, `handleSkipBackward` (numbers modelled as ℚ, with
  JavaScript `Math.floor` and `%` semantics made explicit);
* the payments/ledger core (Wallet, Transaction, Purchase, RechargeCode,
  audit) — the Django payments app's source is not part of the provided
  files, only its architecture description, so it is modelled from the
  spec's words (each such definition says so in its doc comment).
-/

namespace Entrypoint

/-- Outcome of the shell `until` loop in `backend/entrypoint.sh`:
how many times `python manage.py migrate` ran, how many `sleep $SLEEP`
calls happened, and whether the last attempt succeeded. -/
structure LoopOutcome where
  attempts : Nat
  sleeps : Nat
  success : Bool
deriving Repr, DecidableEq

/-- Constant `RETRIES=12` in `backend/entrypoint.sh`. -/
def RETRIES : Nat := 12

/-- Constant `SLEEP=5` in `backend/entrypoint.sh` (seconds slept between attempts). -/
def SLEEP : Nat := 5

/-- The `until python manage.py migrate; do ...` loop of
`backend/entrypoint.sh`. `results i` is the outcome of the `(i+1)`-th
migrate invocation; `idx` is the index of the next invocation; `remaining`
is `RETRIES - COUNT`, the number of further attempts the `COUNT`/`RETRIES`
check still allows (the loop body exits 1 once `COUNT` reaches `RETRIES`).
A failed attempt that is not the last sleeps `SLEEP` seconds and retries. -/
def migrateLoop (results : Nat → Bool) (idx : Nat) : Nat → LoopOutcome
  | 0 => ⟨0, 0, false⟩
  | remaining + 1 =>
    if results idx then ⟨1, 0, true⟩
    else if remaining = 0 then ⟨1, 0, false⟩
    else
      let r := migrateLoop results (idx + 1) remaining
      ⟨r.attempts + 1, r.sleeps + 1, r.success⟩

/-- What one run of `backend/entrypoint.sh` did: migrate attempts, sleeps,
whether `collectstatic` ran, whether Gunicorn was exec'd, and the exit
status (`some 1` when the script exits after exhausting the retries; `none`
when `exec gunicorn` replaces the process). -/
structure Run where
  migrateAttempts : Nat
  sleepCalls : Nat
  ranCollectstatic : Bool
  ranGunicorn : Bool
  exitStatus : Option Nat
deriving Repr, DecidableEq

/-- The script `backend/entrypoint.sh` as a whole: run the migrate retry loop; on
success fall through to `collectstatic` and `exec gunicorn`; on failure
print and `exit 1` without reaching either. -/
def entrypoint (results : Nat → Bool) : Run :=
  let r := migrateLoop results 0 RETRIES
  if r.success then
    ⟨r.attempts, r.sleeps, true, true, none⟩
  else
    ⟨r.attempts, r.sleeps, false, false, some 1⟩

end Entrypoint

namespace VideoPlayer

/-- A JavaScript number as `formatTime` receives it: `NaN` or a finite
value (modelled as a rational; video times are finite doubles). -/
inductive JSNumber where
  | nan : JSNumber
  | fin : ℚ → JSNumber
deriving Repr

/-- JavaScript truncation toward zero, as used by the `%` operator. -/
def jsTrunc (q : ℚ) : ℤ := if 0 ≤ q then ⌊q⌋ else -⌊-q⌋

/-- JavaScript `x % y`: `x - y * trunc(x / y)` (sign of the dividend). -/
def jsRem (x y : ℚ) : ℚ := x - y * (jsTrunc (x / y) : ℚ)

/-- Function `formatTime` from `CustomVideoPlayer.js` lines 31-40: `'00:00'` on
`NaN`; otherwise `h = Math.floor(seconds / 3600)`,
`m = Math.floor((seconds % 3600) / 60)`, `s = Math.floor(seconds % 60)`,
rendered `h:mm:ss` when `h > 0` and `m:ss` otherwise, with the template
literal's conditional `'0'` padding. -/
def formatTime : JSNumber → String
  | .nan => "00:00"
  | .fin seconds =>
    let h : ℤ := ⌊seconds / 3600⌋
    let m : ℤ := ⌊jsRem seconds 3600 / 60⌋
    let s : ℤ := ⌊jsRem seconds 60⌋
    if h > 0 then
      toString h ++ ":" ++ (if m < 10 then "0" else "") ++ toString m
        ++ ":" ++ (if s < 10 then "0" else "") ++ toString s
    else
      toString m ++ ":" ++ (if s < 10 then "0" else "") ++ toString s

/-- Mathematical `x mod d` for rationals (`x - d * ⌊x / d⌋`), the sense in
which the claim's formulas `s mod 3600` and `s mod 60` are read. -/
def modQ (x d : ℚ) : ℚ := x - d * (⌊x / d⌋ : ℚ)

/-- Hours field named by the claim: `floor(s / 3600)`. -/
def hoursOf (q : ℚ) : ℤ := ⌊q / 3600⌋

/-- Minutes field named by the claim: `floor((s mod 3600) / 60)`. -/
def minutesOf (q : ℚ) : ℤ := ⌊modQ q 3600 / 60⌋

/-- Seconds field named by the claim: `floor(s mod 60)`. -/
def secondsOf (q : ℚ) : ℤ := ⌊modQ q 60⌋

/-- Zero-padding to two digits (for values `0 ≤ n ≤ 59`). -/
def pad2 (n : ℤ) : String := (if n < 10 then "0" else "") ++ toString n

/-- The output format as the claim states it: `h:mm:ss` (minutes and
seconds padded) when the input is at least 3600 seconds, else `m:ss`
(minutes unpadded). -/
def claimFormat (q : ℚ) : String :=
  if 3600 ≤ q then
    toString (hoursOf q) ++ ":" ++ pad2 (minutesOf q) ++ ":" ++ pad2 (secondsOf q)
  else
    toString (minutesOf q) ++ ":" ++ pad2 (secondsOf q)

/-- The component state the skip handlers read: whether `playerRef.current`
is non-null, the `isReady` flag, and the `duration` and `played` state
variables (seconds, as rationals). -/
structure PlayerState where
  playerPresent : Bool
  isReady : Bool
  duration : ℚ
  played : ℚ
deriving Repr, DecidableEq

/-- Handler `handleSkipForward` from `CustomVideoPlayer.js` lines 80-89: guarded by
`playerRef.current && isReady && duration > 0`, it seeks to
`Math.min(played + 10, duration)` and stores that as `played`. -/
def handleSkipForward (st : PlayerState) : PlayerState :=
  if st.playerPresent = true ∧ st.isReady = true ∧ 0 < st.duration then
    { st with played := min (st.played + 10) st.duration }
  else st

/-- Handler `handleSkipBackward` from `CustomVideoPlayer.js` lines 92-100: guarded
by `playerRef.current && isReady && duration > 0`, it seeks to
`Math.max(played - 10, 0)` and stores that as `played`. -/
def handleSkipBackward (st : PlayerState) : PlayerState :=
  if st.playerPresent = true ∧ st.isReady = true ∧ 0 < st.duration then
    { st with played := max (st.played - 10) 0 }
  else st

end VideoPlayer

namespace Ledger

/-- Modelled from the spec: transaction kinds of the payments app
(`deposit, withdrawal, purchase, refund, recharge_code, manual_deposit`);
the Django payments app's source is not among the provided files. -/
inductive TxKind where
  | deposit
  | withdrawal
  | purchase
  | refund
  | rechargeCode
  | manualDeposit
deriving DecidableEq, Repr

/-- Modelled from the spec: immutable Transaction record
`{id, wallet_id, amount (signed, minor-unit integer), kind, created_at,
reference (optional purchase id)}`. -/
structure Transaction where
  id : Nat
  wallet_id : Nat
  amount : ℤ
  kind : TxKind
  created_at : Nat
  reference : Option Nat
deriving DecidableEq, Repr

/-- Modelled from the spec: Wallet `{id, student_id, currency}`; balance is
NOT stored, it is derived from the transactions. -/
structure Wallet where
  id : Nat
  student_id : Nat
  currency : String
deriving DecidableEq, Repr

/-- Modelled from the spec: a RechargeCode's status, `unused` or `used`. -/
inductive CodeStatus where
  | unused
  | used
deriving DecidableEq, Repr

/-- Modelled from the spec: RechargeCode
`{code (unique), amount, status, used_by, used_at}`. -/
structure RechargeCode where
  code : String
  amount : ℤ
  status : CodeStatus
  used_by : Option Nat
  used_at : Option Nat
deriving DecidableEq, Repr

/-- Modelled from the spec: Purchase `{id, student_id, course_id,
transaction_id, price_at_purchase, created_at}`. -/
structure Purchase where
  id : Nat
  student_id : Nat
  course_id : Nat
  transaction_id : Nat
  price_at_purchase : ℤ
  created_at : Nat
deriving DecidableEq, Repr

/-- Modelled from the spec: the one part of a Course the ledger core reads,
its identity and current listed price (admins may change the price). -/
structure Course where
  id : Nat
  price : ℤ
deriving DecidableEq, Repr

/-- Modelled from the spec: AuditLogEntry
`{id, actor_id, action, target_type, target_id, timestamp, detail}`. -/
structure AuditLogEntry where
  id : Nat
  actor_id : Nat
  action : String
  target_type : String
  target_id : Nat
  timestamp : Nat
  detail : String
deriving DecidableEq, Repr

/-- Modelled from the spec: the persisted state of the payments core —
the append-only ledger, the wallets, purchases, recharge codes, courses and
the audit log, plus id counters and a logical clock for timestamps. -/
structure State where
  transactions : List Transaction
  wallets : List Wallet
  purchases : List Purchase
  codes : List RechargeCode
  courses : List Course
  auditLog : List AuditLogEntry
  nextTxId : Nat
  nextPurchaseId : Nat
  nextAuditId : Nat
  now : Nat
deriving DecidableEq, Repr

/-- Modelled from the spec: the error taxonomy of §7 (the two extra
not-found cases cover inputs the spec leaves open). -/
inductive Err where
  | WalletNotFound
  | InsufficientFunds
  | AlreadyPurchased
  | AlreadyRefunded
  | CodeNotFound
  | CodeAlreadyUsed
  | AuditWriteFailed
  | CourseNotFound
  | PurchaseNotFound
deriving DecidableEq, Repr

/-- Modelled from the spec: the Wallet Accessor "computes a student's
current balance by folding the ledger" — a fold over the transaction
list accumulating the amounts belonging to the wallet. -/
def balance (s : State) (w : Nat) : ℤ :=
  s.transactions.foldl (fun acc t => if t.wallet_id = w then acc + t.amount else acc) 0

/-- The claim's formula for a wallet's balance:
`sum(t.amount for t in transactions where t.wallet_id == w)`. -/
def sumOfWalletTx (s : State) (w : Nat) : ℤ :=
  ((s.transactions.filter (fun t => t.wallet_id = w)).map Transaction.amount).sum

/-- Modelled from the spec: `getBalance(wallet_id) -> integer`, pure read;
`WalletNotFound` if the wallet id is unknown. -/
def getBalance (s : State) (w : Nat) : Except Err ℤ :=
  if s.wallets.any (fun wal => wal.id = w) then .ok (balance s w)
  else .error .WalletNotFound

/-- The two transaction kinds the spec calls debits (`withdrawal`,
`purchase`), the ones the Ledger Store guards against overdraft. -/
def isDebit : TxKind → Bool
  | .withdrawal => true
  | .purchase => true
  | _ => false

/-- Modelled from the spec (§4.2 Ledger Store):
`append(wallet_id, amount, kind, reference) -> Transaction`; fails with
`InsufficientFunds`, creating no transaction, when a debit kind would drive
the wallet's resulting balance negative; otherwise appends one immutable
transaction and advances the clock. -/
def ledgerAppend (s : State) (w : Nat) (amount : ℤ) (kind : TxKind)
    (reference : Option Nat) : Except Err (State × Transaction) :=
  if isDebit kind = true ∧ balance s w + amount < 0 then
    .error .InsufficientFunds
  else
    let t : Transaction := ⟨s.nextTxId, w, amount, kind, s.now, reference⟩
    .ok ({ s with transactions := s.transactions ++ [t],
                  nextTxId := s.nextTxId + 1,
                  now := s.now + 1 }, t)

/-- Modelled from the spec (§4.5 Audit Recorder): append one
AuditLogEntry; `auditOk` says whether the underlying write succeeds, and a
failed write surfaces as `AuditWriteFailed` instead of being swallowed. -/
def recordAudit (s : State) (auditOk : Bool) (actor : Nat) (action : String)
    (ttype : String) (target : Nat) (detail : String) : Except Err State :=
  if auditOk then
    .ok { s with
            auditLog := s.auditLog ++
              [⟨s.nextAuditId, actor, action, ttype, target, s.now, detail⟩],
            nextAuditId := s.nextAuditId + 1 }
  else .error .AuditWriteFailed

/-- The student's wallet row, if any. -/
def findWallet (s : State) (student_id : Nat) : Option Wallet :=
  s.wallets.find? (fun w => w.student_id = student_id)

/-- Whether a refund transaction already references this purchase. -/
def isRefunded (s : State) (purchase_id : Nat) : Bool :=
  s.transactions.any (fun t => t.kind = .refund ∧ t.reference = some purchase_id)

/-- Whether an active (non-refunded) Purchase exists for the pair. -/
def hasActivePurchase (s : State) (student_id course_id : Nat) : Bool :=
  s.purchases.any (fun p =>
    p.student_id = student_id ∧ p.course_id = course_id ∧ isRefunded s p.id = false)

/-- The first (oldest) non-refunded Purchase of the course, system-wide. -/
def priorCoursePurchase (s : State) (course_id : Nat) : Option Purchase :=
  s.purchases.find? (fun p => p.course_id = course_id ∧ isRefunded s p.id = false)

/-- The course's current listed price, if the course exists. -/
def listedPrice (s : State) (course_id : Nat) : Option ℤ :=
  (s.courses.find? (fun c => c.id = course_id)).map Course.price

/-- Modelled from the spec (§4.4 step 2): the effective price — the price
lock of a prior non-refunded Purchase if one exists, else the course's
current listed price. -/
def effectivePrice (s : State) (course_id : Nat) : Option ℤ :=
  match priorCoursePurchase s course_id with
  | some p => some p.price_at_purchase
  | none => listedPrice s course_id

/-- Modelled from the spec: an admin changing a course's listed price. -/
def setPrice (s : State) (course_id : Nat) (newPrice : ℤ) : State :=
  { s with courses := (s.courses.map
      (fun c => if c.id = course_id then { c with price := newPrice } else c)) }

/-- Modelled from the spec (§4.4 Purchase Orchestrator):
`purchase(student_id, course_id) -> Purchase` as one atomic unit — reject
`AlreadyPurchased`, determine the effective (possibly locked) price, append
the `purchase` debit (propagating `InsufficientFunds`), create the Purchase
row, and emit the audit entry; any failure commits nothing. -/
def purchase (s : State) (student_id course_id : Nat) (auditOk : Bool) :
    Except Err (State × Purchase) :=
  if hasActivePurchase s student_id course_id = true then .error .AlreadyPurchased
  else
    match effectivePrice s course_id with
    | none => .error .CourseNotFound
    | some price =>
      match findWallet s student_id with
      | none => .error .WalletNotFound
      | some wal =>
        match ledgerAppend s wal.id (-price) .purchase (some s.nextPurchaseId) with
        | .error e => .error e
        | .ok (s1, t) =>
          match recordAudit
              { s1 with
                  purchases := s1.purchases ++
                    [⟨s.nextPurchaseId, student_id, course_id, t.id, price, t.created_at⟩],
                  nextPurchaseId := s.nextPurchaseId + 1 }
              auditOk student_id "purchase" "Purchase" s.nextPurchaseId "" with
          | .error e => .error e
          | .ok s3 =>
            .ok (s3, ⟨s.nextPurchaseId, student_id, course_id, t.id, price, t.created_at⟩)

/-- Marking a recharge code used: status, used_by, used_at. -/
def markUsed (codes : List RechargeCode) (code : String) (student_id : Nat)
    (t : Nat) : List RechargeCode :=
  codes.map (fun c =>
    if c.code = code then
      { c with status := .used, used_by := some student_id, used_at := some t }
    else c)

/-- Modelled from the spec (§4.3 Recharge Code Registry):
`redeem(code, student_id) -> Transaction` — exact-match lookup
(`CodeNotFound` if absent, `CodeAlreadyUsed` if already used), then
atomically mark used and append the `recharge_code` credit of
`code.amount`; any failure commits nothing. -/
def redeem (s : State) (code : String) (student_id : Nat) (auditOk : Bool) :
    Except Err (State × Transaction) :=
  match s.codes.find? (fun c => c.code = code) with
  | none => .error .CodeNotFound
  | some c =>
    if c.status = .used then .error .CodeAlreadyUsed
    else
      match findWallet s student_id with
      | none => .error .WalletNotFound
      | some wal =>
        match ledgerAppend { s with codes := markUsed s.codes code student_id s.now }
            wal.id c.amount .rechargeCode none with
        | .error e => .error e
        | .ok (s2, t) =>
          match recordAudit s2 auditOk student_id "redeem" "RechargeCode" 0 code with
          | .error e => .error e
          | .ok s3 => .ok (s3, t)

/-- Modelled from the spec (§4.4 refund path):
`refund(purchase_id) -> Transaction` — appends an offsetting `refund`
credit referencing the purchase, never deletes the Purchase row, and fails
with `AlreadyRefunded` if a refund transaction already references it. -/
def refund (s : State) (purchase_id : Nat) (auditOk : Bool) :
    Except Err (State × Transaction) :=
  match s.purchases.find? (fun p => p.id = purchase_id) with
  | none => .error .PurchaseNotFound
  | some p =>
    if isRefunded s purchase_id = true then .error .AlreadyRefunded
    else
      match findWallet s p.student_id with
      | none => .error .WalletNotFound
      | some wal =>
        match ledgerAppend s wal.id p.price_at_purchase .refund (some purchase_id) with
        | .error e => .error e
        | .ok (s1, t) =>
          match recordAudit s1 auditOk p.student_id "refund" "Purchase" purchase_id "" with
          | .error e => .error e
          | .ok s2 => .ok (s2, t)

/-- Modelled from the spec: a manual deposit credit by an admin actor —
append a `manual_deposit` transaction and emit the audit entry. -/
def deposit (s : State) (actor wallet_id : Nat) (amount : ℤ) (auditOk : Bool) :
    Except Err (State × Transaction) :=
  if s.wallets.any (fun w => w.id = wallet_id) then
    match ledgerAppend s wallet_id amount .manualDeposit none with
    | .error e => .error e
    | .ok (s1, t) =>
      match recordAudit s1 auditOk actor "deposit" "Wallet" wallet_id "" with
      | .error e => .error e
      | .ok s2 => .ok (s2, t)
  else .error .WalletNotFound

/-- At most one non-refunded Purchase per (student, course) pair. -/
def atMostOneActive (s : State) : Prop :=
  ∀ p ∈ s.purchases, ∀ q ∈ s.purchases,
    isRefunded s p.id = false → isRefunded s q.id = false →
    p.student_id = q.student_id → p.course_id = q.course_id → p = q

end Ledger

/-- A small populated ledger state used by the closed witnesses: one
deposit of 500 into student 1's wallet, two wallets, one unused recharge
code worth 200, three courses. -/
def sampleState : Ledger.State :=
  ⟨[⟨0, 1, 500, .deposit, 0, none⟩],
   [⟨1, 1, "EGP"⟩, ⟨2, 2, "EGP"⟩],
   [], [⟨"ABC", 200, .unused, none, none⟩],
   [⟨1, 100⟩, ⟨2, 500⟩, ⟨3, 1⟩], [], 1, 0, 0, 1⟩

/-- A state in which student 1 already purchased course 1 at price 100
(purchase id 0, not refunded) and the course's listed price has since been
raised to 150; student 2 holds 500 and has not purchased it. -/
def lockState : Ledger.State :=
  ⟨[⟨0, 1, 500, .deposit, 0, none⟩, ⟨1, 1, -100, .purchase, 1, some 0⟩,
    ⟨2, 2, 500, .deposit, 2, none⟩],
   [⟨1, 1, "EGP"⟩, ⟨2, 2, "EGP"⟩],
   [⟨0, 1, 1, 1, 100, 1⟩],
   [], [⟨1, 150⟩], [], 3, 1, 0, 3⟩

/-- The state produced by student 2 purchasing course 1 in `lockState`:
one more `purchase` debit of the locked price 100, one more Purchase row,
one audit entry. -/
def lockStateAfter : Ledger.State :=
  ⟨[⟨0, 1, 500, .deposit, 0, none⟩, ⟨1, 1, -100, .purchase, 1, some 0⟩,
    ⟨2, 2, 500, .deposit, 2, none⟩, ⟨3, 2, -100, .purchase, 3, some 1⟩],
   [⟨1, 1, "EGP"⟩, ⟨2, 2, "EGP"⟩],
   [⟨0, 1, 1, 1, 100, 1⟩, ⟨1, 2, 1, 3, 100, 3⟩],
   [], [⟨1, 150⟩],
   [⟨0, 2, "purchase", "Purchase", 1, 4, ""⟩],
   4, 2, 1, 4⟩

/-- A state whose only recharge code has already been redeemed by
student 1. -/
def usedCodeState : Ledger.State :=
  ⟨[⟨0, 1, 200, .rechargeCode, 0, none⟩],
   [⟨1, 1, "EGP"⟩, ⟨2, 2, "EGP"⟩],
   [], [⟨"ABC", 200, .used, some 1, some 0⟩],
   [], [], 1, 0, 0, 1⟩

/-- The state produced by refunding purchase 0 in `lockState`: the refund
credit of 100 is appended, the Purchase row remains. -/
def refundState : Ledger.State :=
  ⟨[⟨0, 1, 500, .deposit, 0, none⟩, ⟨1, 1, -100, .purchase, 1, some 0⟩,
    ⟨2, 2, 500, .deposit, 2, none⟩, ⟨3, 1, 100, .refund, 3, some 0⟩],
   [⟨1, 1, "EGP"⟩, ⟨2, 2, "EGP"⟩],
   [⟨0, 1, 1, 1, 100, 1⟩],
   [], [⟨1, 150⟩],
   [⟨0, 1, "refund", "Purchase", 0, 4, ""⟩],
   4, 1, 1, 4⟩



namespace Entrypoint

lemma migrateLoop_attempts_le (results : Nat → Bool) :
    ∀ fuel idx, (migrateLoop results idx fuel).attempts ≤ fuel := by
  intro fuel
  induction fuel with
  | zero => intro idx; simp [migrateLoop]
  | succ n ih =>
    intro idx
    simp only [migrateLoop]
    cases hr : results idx with
    | true => simp
    | false =>
      simp only [Bool.false_eq_true, if_false]
      by_cases h2 : n = 0
      · rw [if_pos h2]; simp [h2]
      · rw [if_neg h2]
        exact Nat.succ_le_succ (ih (idx + 1))

lemma migrateLoop_all_false (results : Nat → Bool) :
    ∀ fuel idx, (∀ i, i < fuel → results (idx + i) = false) →
      migrateLoop results idx fuel = ⟨fuel, fuel - 1, false⟩ := by
  intro fuel
  induction fuel with
  | zero => intro idx _; simp [migrateLoop]
  | succ n ih =>
    intro idx h
    have h0 : results idx = false := by
      have := h 0 (Nat.succ_pos n); simpa using this
    simp only [migrateLoop, h0, Bool.false_eq_true, if_false]
    by_cases h2 : n = 0
    · subst h2; simp
    · rw [if_neg h2]
      have hrec := ih (idx + 1) (fun i hi => by
        have := h (i + 1) (Nat.succ_lt_succ hi)
        have heq : idx + (i + 1) = idx + 1 + i := by omega
        rwa [heq] at this)
      rw [hrec]
      have hn : n - 1 + 1 = n := Nat.succ_pred_eq_of_pos (Nat.pos_of_ne_zero h2)
      simp [hn]

lemma migrateLoop_success (results : Nat → Bool) :
    ∀ fuel idx, (migrateLoop results idx fuel).success = true →
      ∃ i, i + 1 = (migrateLoop results idx fuel).attempts ∧ results (idx + i) = true := by
  intro fuel
  induction fuel with
  | zero => intro idx h; simp [migrateLoop] at h
  | succ n ih =>
    intro idx h
    simp only [migrateLoop] at h ⊢
    cases hr : results idx with
    | true => exact ⟨0, by simp, by simpa using hr⟩
    | false =>
      rw [hr] at h
      simp only [Bool.false_eq_true, if_false] at h ⊢
      by_cases h2 : n = 0
      · rw [if_pos h2] at h; simp at h
      · rw [if_neg h2] at h ⊢
        simp only [] at h
        obtain ⟨i, hi, hres⟩ := ih (idx + 1) (by simpa using h)
        refine ⟨i + 1, ?_, ?_⟩
        · show i + 1 + 1 = (migrateLoop results (idx + 1) n).attempts + 1
          omega
        · have heq : idx + (i + 1) = idx + 1 + i := by omega
          rw [heq]; exact hres

end Entrypoint

/-- C8: `backend/entrypoint.sh` attempts `python manage.py migrate` at most
`RETRIES = 12` times, sleeping `SLEEP = 5` seconds between attempts (11
sleeps in the worst case); if all 12 attempts fail, the script exits with
status 1 without running collectstatic or Gunicorn; collectstatic and
Gunicorn are reached only when some attempt — the last one made —
succeeded; the loop terminates after a bounded number of iterations. -/
theorem entrypoint_retry_bounded (results : Nat → Bool) :
    Entrypoint.RETRIES = 12 ∧ Entrypoint.SLEEP = 5 ∧
    (Entrypoint.entrypoint results).migrateAttempts ≤ 12 ∧
    ((∀ i, i < 12 → results i = false) →
      Entrypoint.entrypoint results = ⟨12, 11, false, false, some 1⟩) ∧
    ((Entrypoint.entrypoint results).ranCollectstatic = true ∨
        (Entrypoint.entrypoint results).ranGunicorn = true →
      (Entrypoint.entrypoint results).exitStatus = none ∧
      (Entrypoint.entrypoint results).ranCollectstatic = true ∧
      (Entrypoint.entrypoint results).ranGunicorn = true ∧
      ∃ i, i + 1 = (Entrypoint.entrypoint results).migrateAttempts ∧
        results i = true) := by
  refine ⟨rfl, rfl, ?_, ?_, ?_⟩
  · have hle := Entrypoint.migrateLoop_attempts_le results 12 0
    simp only [Entrypoint.entrypoint, Entrypoint.RETRIES]
    by_cases h : (Entrypoint.migrateLoop results 0 12).success = true <;>
      simp [h, hle]
  · intro hall
    have hfalse := Entrypoint.migrateLoop_all_false results 12 0
      (fun i hi => by simpa using hall i hi)
    simp only [Entrypoint.entrypoint, Entrypoint.RETRIES, hfalse]
    rfl
  · intro hreach
    by_cases h : (Entrypoint.migrateLoop results 0 12).success = true
    · obtain ⟨i, hi, hres⟩ := Entrypoint.migrateLoop_success results 12 0 h
      refine ⟨?_, ?_, ?_, ⟨i, ?_, by simpa using hres⟩⟩ <;>
        simp [Entrypoint.entrypoint, Entrypoint.RETRIES, h, hi]
    · exfalso
      have hcg : (Entrypoint.entrypoint results).ranCollectstatic = false ∧
          (Entrypoint.entrypoint results).ranGunicorn = false := by
        simp [Entrypoint.entrypoint, Entrypoint.RETRIES, h]
      rcases hreach with hc | hg
      · rw [hcg.1] at hc; cases hc
      · rw [hcg.2] at hg; cases hg

/-- Closed witness for `entrypoint_retry_bounded`: with every migrate
attempt failing, the script makes exactly 12 attempts, sleeps 11 times,
and exits 1 without collectstatic or Gunicorn. -/
theorem entrypoint_retry_bounded_witness :
    (∀ i, i < 12 → (fun _ => false) i = false) ∧
    Entrypoint.entrypoint (fun _ => false) = ⟨12, 11, false, false, some 1⟩ :=
  ⟨fun _ _ => rfl, (entrypoint_retry_bounded (fun _ => false)).2.2.2.1 (fun _ _ => rfl)⟩

namespace VideoPlayer

lemma jsRem_nonneg_eq (q d : ℚ) (hq : 0 ≤ q) (hd : 0 < d) : jsRem q d = modQ q d := by
  unfold jsRem modQ jsTrunc
  rw [if_pos (div_nonneg hq hd.le)]

lemma floor_hours_pos_iff (q : ℚ) : 0 < ⌊q / 3600⌋ ↔ 3600 ≤ q := by
  rw [show ((0:ℤ) < ⌊q / 3600⌋ ↔ (1:ℤ) ≤ ⌊q / 3600⌋) from by omega]
  rw [Int.le_floor]
  push_cast
  rw [le_div_iff₀ (by norm_num : (0:ℚ) < 3600)]
  norm_num

end VideoPlayer

/-- C9: `formatTime` is total on every numeric input — it returns `"00:00"`
on `NaN`, and for every finite non-negative number of seconds `q` it
returns `h:mm:ss` (minutes and seconds zero-padded to two digits) when
`q ≥ 3600` and `m:ss` (minutes unpadded, seconds zero-padded) otherwise,
with `hours = floor(q/3600)`, `minutes = floor((q mod 3600)/60)`,
`seconds = floor(q mod 60)`. -/
theorem formatTime_total_spec :
    VideoPlayer.formatTime .nan = "00:00" ∧
    ∀ q : ℚ, 0 ≤ q →
      VideoPlayer.formatTime (.fin q) = VideoPlayer.claimFormat q := by
  refine ⟨rfl, ?_⟩
  intro q hq
  have h36 := VideoPlayer.jsRem_nonneg_eq q 3600 hq (by norm_num)
  have h60 := VideoPlayer.jsRem_nonneg_eq q 60 hq (by norm_num)
  simp only [VideoPlayer.formatTime, VideoPlayer.claimFormat, VideoPlayer.pad2,
    VideoPlayer.hoursOf, VideoPlayer.minutesOf, VideoPlayer.secondsOf, h36, h60]
  by_cases hc : 3600 ≤ q
  · rw [if_pos ((VideoPlayer.floor_hours_pos_iff q).mpr hc), if_pos hc]
    simp [String.append_assoc]
  · rw [if_neg (fun h => hc ((VideoPlayer.floor_hours_pos_iff q).mp h)), if_neg hc]
    simp [String.append_assoc]

/-- Closed witness for `formatTime_total_spec`, at 3725 seconds. -/
theorem formatTime_total_spec_witness :
    (0:ℚ) ≤ 3725 ∧
    VideoPlayer.formatTime (.fin 3725) = VideoPlayer.claimFormat 3725 :=
  ⟨by norm_num, formatTime_total_spec.2 3725 (by norm_num)⟩

/-- C10: with the player ready, a positive duration and the played position
inside `[0, duration]`, `handleSkipForward` moves the position to
`min(played + 10, duration)` and `handleSkipBackward` to
`max(played - 10, 0)` — both leaving the duration unchanged and the new
position inside `[0, duration]`; when the player is not ready or the
duration is 0, both handlers leave the state unchanged. -/
theorem skipHandlers_bounds :
    (∀ st : VideoPlayer.PlayerState,
      st.playerPresent = true → st.isReady = true → 0 < st.duration →
      0 ≤ st.played → st.played ≤ st.duration →
      (VideoPlayer.handleSkipForward st).played = min (st.played + 10) st.duration ∧
      (VideoPlayer.handleSkipBackward st).played = max (st.played - 10) 0 ∧
      (VideoPlayer.handleSkipForward st).duration = st.duration ∧
      (VideoPlayer.handleSkipBackward st).duration = st.duration ∧
      0 ≤ (VideoPlayer.handleSkipForward st).played ∧
      (VideoPlayer.handleSkipForward st).played ≤ st.duration ∧
      0 ≤ (VideoPlayer.handleSkipBackward st).played ∧
      (VideoPlayer.handleSkipBackward st).played ≤ st.duration) ∧
    (∀ st : VideoPlayer.PlayerState, st.isReady = false ∨ st.duration = 0 →
      VideoPlayer.handleSkipForward st = st ∧ VideoPlayer.handleSkipBackward st = st) := by
  constructor
  · intro st hp hr hd h0 hpd
    have hcond : st.playerPresent = true ∧ st.isReady = true ∧ 0 < st.duration :=
      ⟨hp, hr, hd⟩
    unfold VideoPlayer.handleSkipForward VideoPlayer.handleSkipBackward
    rw [if_pos hcond, if_pos hcond]
    refine ⟨rfl, rfl, rfl, rfl, ?_, ?_, ?_, ?_⟩
    · exact le_min (by linarith) hd.le
    · exact min_le_right _ _
    · exact le_max_right _ _
    · exact max_le (by linarith) hd.le
  · intro st h
    have hcond : ¬(st.playerPresent = true ∧ st.isReady = true ∧ 0 < st.duration) := by
      rcases h with h | h
      · rintro ⟨-, h2, -⟩; rw [h] at h2; cases h2
      · rintro ⟨-, -, h3⟩; rw [h] at h3; exact lt_irrefl 0 h3
    unfold VideoPlayer.handleSkipForward VideoPlayer.handleSkipBackward
    rw [if_neg hcond, if_neg hcond]
    exact ⟨rfl, rfl⟩

/-- Closed witness for `skipHandlers_bounds`: a forward skip near the end
clamps to the duration, a backward skip near the start clamps to 0, and a
not-ready player is left unchanged. -/
theorem skipHandlers_bounds_witness :
    (VideoPlayer.handleSkipForward ⟨true, true, 100, 95⟩).played = min ((95:ℚ) + 10) 100 ∧
    (VideoPlayer.handleSkipBackward ⟨true, true, 100, 5⟩).played = max ((5:ℚ) - 10) 0 ∧
    VideoPlayer.handleSkipForward ⟨true, false, 100, 50⟩ = ⟨true, false, 100, 50⟩ :=
  ⟨(skipHandlers_bounds.1 ⟨true, true, 100, 95⟩ rfl rfl (by norm_num) (by norm_num)
      (by norm_num)).1,
   (skipHandlers_bounds.1 ⟨true, true, 100, 5⟩ rfl rfl (by norm_num) (by norm_num)
      (by norm_num)).2.1,
   (skipHandlers_bounds.2 ⟨true, false, 100, 50⟩ (Or.inl rfl)).1⟩

namespace Ledger

lemma foldl_balance (w : Nat) (ts : List Transaction) (acc : ℤ) :
    ts.foldl (fun a t => if t.wallet_id = w then a + t.amount else a) acc
      = acc + ((ts.filter (fun t => t.wallet_id = w)).map Transaction.amount).sum := by
  induction ts generalizing acc with
  | nil => simp
  | cons t ts ih =>
    simp only [List.foldl_cons, List.filter_cons]
    by_cases h : t.wallet_id = w
    · simp [h, ih, add_assoc]
    · simp [h, ih]

lemma balance_eq_sum (s : State) (w : Nat) : balance s w = sumOfWalletTx s w := by
  unfold balance sumOfWalletTx
  simpa using foldl_balance w s.transactions 0

lemma sum_filter_append (ts : List Transaction) (t : Transaction) (w : Nat) :
    (((ts ++ [t]).filter (fun x => x.wallet_id = w)).map Transaction.amount).sum
      = ((ts.filter (fun x => x.wallet_id = w)).map Transaction.amount).sum
        + (if t.wallet_id = w then t.amount else 0) := by
  by_cases h : t.wallet_id = w <;> simp [List.filter_append, h]

lemma recordAudit_ok {s : State} {okb : Bool} {actor : Nat} {act ty : String}
    {target : Nat} {d : String} {s' : State}
    (h : recordAudit s okb actor act ty target d = .ok s') :
    okb = true ∧ s'.transactions = s.transactions ∧ s'.purchases = s.purchases ∧
    s'.codes = s.codes ∧ s'.wallets = s.wallets ∧ s'.courses = s.courses ∧
    s'.now = s.now ∧ s'.nextTxId = s.nextTxId ∧
    s'.nextPurchaseId = s.nextPurchaseId := by
  unfold recordAudit at h
  split at h
  · rename_i hok
    simp only [Except.ok.injEq] at h
    subst h
    exact ⟨hok, rfl, rfl, rfl, rfl, rfl, rfl, rfl, rfl⟩
  · exact absurd h (by simp)

lemma ledgerAppend_ok {s : State} {w : Nat} {a : ℤ} {k : TxKind} {r : Option Nat}
    {s' : State} {t : Transaction}
    (h : ledgerAppend s w a k r = .ok (s', t)) :
    t = ⟨s.nextTxId, w, a, k, s.now, r⟩ ∧
    s' = { s with transactions := s.transactions ++ [t],
                  nextTxId := s.nextTxId + 1, now := s.now + 1 } ∧
    (isDebit k = true → 0 ≤ balance s w + a) := by
  unfold ledgerAppend at h
  split at h
  · exact absurd h (by simp)
  · rename_i hcond
    simp only [Except.ok.injEq, Prod.mk.injEq] at h
    obtain ⟨hs, ht⟩ := h
    subst ht
    refine ⟨rfl, hs.symm, fun hdk => le_of_not_lt (fun hlt => hcond ⟨hdk, hlt⟩)⟩

lemma balance_after_append {s : State} {w : Nat} {a : ℤ} {k : TxKind}
    {r : Option Nat} {s' : State} {t : Transaction}
    (h : ledgerAppend s w a k r = .ok (s', t)) (v : Nat) :
    balance s' v = balance s v + (if w = v then a else 0) := by
  obtain ⟨ht, hs, -⟩ := ledgerAppend_ok h
  subst hs
  rw [balance_eq_sum, balance_eq_sum]
  unfold sumOfWalletTx
  rw [sum_filter_append]
  subst ht
  rfl

lemma purchase_ok {s : State} {a b : Nat} {okb : Bool} {s' : State} {p : Purchase}
    (h : purchase s a b okb = .ok (s', p)) :
    hasActivePurchase s a b = false ∧ okb = true ∧
    effectivePrice s b = some p.price_at_purchase ∧
    p.student_id = a ∧ p.course_id = b ∧ p.id = s.nextPurchaseId ∧
    (∃ wal, findWallet s a = some wal ∧
      s'.transactions = s.transactions ++
        [⟨s.nextTxId, wal.id, -p.price_at_purchase, .purchase, s.now,
          some s.nextPurchaseId⟩] ∧
      0 ≤ balance s wal.id + -p.price_at_purchase) ∧
    s'.purchases = s.purchases ++ [p] ∧
    s'.codes = s.codes ∧ s'.wallets = s.wallets ∧ s'.courses = s.courses := by
  unfold purchase at h
  split at h
  · exact absurd h (by simp)
  · rename_i hact
    split at h
    · exact absurd h (by simp)
    · rename_i price hprice
      split at h
      · exact absurd h (by simp)
      · rename_i wal hwal
        split at h
        · exact absurd h (by simp)
        · rename_i s1 t happ
          split at h
          · exact absurd h (by simp)
          · rename_i s3 haud
            simp only [Except.ok.injEq, Prod.mk.injEq] at h
            obtain ⟨hs3, hp⟩ := h
            subst hs3
            obtain ⟨haok, htx3, hpur3, hcod3, hwal3, hcrs3, -, -, -⟩ :=
              recordAudit_ok haud
            obtain ⟨ht, hs1, -⟩ := ledgerAppend_ok happ
            subst hp
            refine ⟨Bool.not_eq_true _ ▸ (by simpa using hact), haok, hprice, rfl, rfl,
              rfl, ⟨wal, hwal, ?_, ?_⟩, ?_, ?_, ?_, ?_⟩
            · rw [htx3]
              simp only [hs1, ht]
            · obtain ⟨-, -, hno⟩ := ledgerAppend_ok happ
              have := hno rfl
              simpa using this
            · rw [hpur3]
              simp only [hs1]
            · rw [hcod3]; simp only [hs1]
            · rw [hwal3]; simp only [hs1]
            · rw [hcrs3]; simp only [hs1]

lemma redeem_ok {s : State} {code : String} {st : Nat} {okb : Bool}
    {s' : State} {t : Transaction}
    (h : redeem s code st okb = .ok (s', t)) :
    ∃ c wal, s.codes.find? (fun x => x.code = code) = some c ∧
      c.status = .unused ∧ findWallet s st = some wal ∧ okb = true ∧
      t = ⟨s.nextTxId, wal.id, c.amount, .rechargeCode, s.now, none⟩ ∧
      s'.transactions = s.transactions ++ [t] ∧
      s'.codes = markUsed s.codes code st s.now ∧
      s'.purchases = s.purchases ∧ s'.wallets = s.wallets := by
  unfold redeem at h
  split at h
  · exact absurd h (by simp)
  · rename_i c hfind
    split at h
    · exact absurd h (by simp)
    · rename_i hstat
      split at h
      · exact absurd h (by simp)
      · rename_i wal hwal
        split at h
        · exact absurd h (by simp)
        · rename_i s2 t0 happ
          split at h
          · exact absurd h (by simp)
          · rename_i s3 haud
            simp only [Except.ok.injEq, Prod.mk.injEq] at h
            obtain ⟨hs3, ht0⟩ := h
            subst hs3
            subst ht0
            obtain ⟨haok, htx3, hpur3, hcod3, hwal3, -, -, -, -⟩ := recordAudit_ok haud
            obtain ⟨ht, hs2, -⟩ := ledgerAppend_ok happ
            have hunused : c.status = .unused := by
              cases hc : c.status
              · rfl
              · exact absurd hc hstat
            refine ⟨c, wal, hfind, hunused, hwal, haok, ?_, ?_, ?_, ?_, ?_⟩
            · rw [ht]
            · rw [htx3]; simp only [hs2]
            · rw [hcod3]; simp only [hs2]
            · rw [hpur3]; simp only [hs2]
            · rw [hwal3]; simp only [hs2]

lemma refund_ok {s : State} {pid : Nat} {okb : Bool} {s' : State} {t : Transaction}
    (h : refund s pid okb = .ok (s', t)) :
    ∃ p wal, s.purchases.find? (fun x => x.id = pid) = some p ∧
      isRefunded s pid = false ∧ findWallet s p.student_id = some wal ∧ okb = true ∧
      t = ⟨s.nextTxId, wal.id, p.price_at_purchase, .refund, s.now, some pid⟩ ∧
      s'.transactions = s.transactions ++ [t] ∧
      s'.purchases = s.purchases ∧ s'.codes = s.codes ∧ s'.wallets = s.wallets := by
  unfold refund at h
  split at h
  · exact absurd h (by simp)
  · rename_i p hfind
    split at h
    · exact absurd h (by simp)
    · rename_i href
      split at h
      · exact absurd h (by simp)
      · rename_i wal hwal
        split at h
        · exact absurd h (by simp)
        · rename_i s1 t0 happ
          split at h
          · exact absurd h (by simp)
          · rename_i s2 haud
            simp only [Except.ok.injEq, Prod.mk.injEq] at h
            obtain ⟨hs2, ht0⟩ := h
            subst hs2
            subst ht0
            obtain ⟨haok, htx2, hpur2, hcod2, hwal2, -, -, -, -⟩ := recordAudit_ok haud
            obtain ⟨ht, hs1, -⟩ := ledgerAppend_ok happ
            refine ⟨p, wal, hfind, by simpa using href, hwal, haok, ?_, ?_, ?_, ?_, ?_⟩
            · rw [ht]
            · rw [htx2]; simp only [hs1]
            · rw [hpur2]; simp only [hs1]
            · rw [hcod2]; simp only [hs1]
            · rw [hwal2]; simp only [hs1]

lemma deposit_ok {s : State} {actor w : Nat} {amt : ℤ} {okb : Bool}
    {s' : State} {t : Transaction}
    (h : deposit s actor w amt okb = .ok (s', t)) :
    okb = true ∧ t = ⟨s.nextTxId, w, amt, .manualDeposit, s.now, none⟩ ∧
    s'.transactions = s.transactions ++ [t] ∧
    s'.purchases = s.purchases ∧ s'.codes = s.codes ∧ s'.wallets = s.wallets := by
  unfold deposit at h
  split at h
  · split at h
    · exact absurd h (by simp)
    · rename_i s1 t0 happ
      split at h
      · exact absurd h (by simp)
      · rename_i s2 haud
        simp only [Except.ok.injEq, Prod.mk.injEq] at h
        obtain ⟨hs2, ht0⟩ := h
        subst hs2
        subst ht0
        obtain ⟨haok, htx2, hpur2, hcod2, hwal2, -, -, -, -⟩ := recordAudit_ok haud
        obtain ⟨ht, hs1, -⟩ := ledgerAppend_ok happ
        refine ⟨haok, ?_, ?_, ?_, ?_, ?_⟩
        · rw [ht]
        · rw [htx2]; simp only [hs1]
        · rw [hpur2]; simp only [hs1]
        · rw [hcod2]; simp only [hs1]
        · rw [hwal2]; simp only [hs1]
  · exact absurd h (by simp)

lemma balance_tx_append {s s' : State} {t : Transaction}
    (h : s'.transactions = s.transactions ++ [t]) (v : Nat) :
    balance s' v = balance s v + (if t.wallet_id = v then t.amount else 0) := by
  rw [balance_eq_sum, balance_eq_sum]
  unfold sumOfWalletTx
  rw [h, sum_filter_append]

lemma isRefunded_append_nonrefund {s s' : State} {t : Transaction}
    (htx : s'.transactions = s.transactions ++ [t]) (hk : ¬t.kind = TxKind.refund)
    (n : Nat) : isRefunded s' n = isRefunded s n := by
  unfold isRefunded
  rw [htx, List.any_append]
  simp [hk]

lemma hasActive_false_elim {s : State} {a b : Nat}
    (h : hasActivePurchase s a b = false) :
    ∀ x ∈ s.purchases, x.student_id = a → x.course_id = b →
      isRefunded s x.id = true := by
  intro x hx hsa hsb
  unfold hasActivePurchase at h
  rw [List.any_eq_false] at h
  have hh := h x hx
  simp only [decide_eq_true_eq, not_and] at hh
  have := hh hsa hsb
  exact Bool.not_eq_false _ ▸ (by simpa using this)

end Ledger

/-- C1: for every existing wallet `w`, `getBalance` returns exactly the sum
of `t.amount` over the transactions with `t.wallet_id = w`; the balance is
not stored anywhere in the state (the `Wallet` record has no balance
field), it is recomputed by folding the ledger at read time. -/
theorem getBalance_eq_sum (s : Ledger.State) (w : Nat)
    (h : ∃ wal ∈ s.wallets, wal.id = w) :
    Ledger.getBalance s w = .ok (Ledger.sumOfWalletTx s w) := by
  unfold Ledger.getBalance
  rw [if_pos ?_]
  · rw [Ledger.balance_eq_sum]
  · obtain ⟨wal, hmem, hid⟩ := h
    simp only [List.any_eq_true, decide_eq_true_eq]
    exact ⟨wal, hmem, hid⟩



/-- Closed witness for `getBalance_eq_sum`: on `sampleState`, wallet 1's
balance reads back as the sum of its transaction amounts. -/
theorem getBalance_eq_sum_witness :
    Ledger.getBalance sampleState 1 = .ok (Ledger.sumOfWalletTx sampleState 1) :=
  getBalance_eq_sum sampleState 1 ⟨⟨1, 1, "EGP"⟩, by decide, by decide⟩

/-- C2: a debit-kind append (`withdrawal` or `purchase`) that would drive
the wallet's balance negative fails with `InsufficientFunds` and creates no
transaction (the erroring call returns no new state, so ledger and balance
are unchanged); a successful debit append leaves the debited wallet's
balance non-negative and every other wallet's balance untouched; and every
committed operation — purchase, redeem (codes carrying non-negative
amounts), refund (purchases carrying non-negative prices), and
non-negative deposits — preserves non-negativity of all balances. -/
theorem debit_guard_nonneg_balance :
    (∀ (s : Ledger.State) (w : Nat) (a : ℤ) (k : Ledger.TxKind) (r : Option Nat),
      Ledger.isDebit k = true → Ledger.balance s w + a < 0 →
      Ledger.ledgerAppend s w a k r = .error .InsufficientFunds) ∧
    (∀ (s : Ledger.State) (w : Nat) (a : ℤ) (k : Ledger.TxKind) (r : Option Nat)
        (s' : Ledger.State) (t : Ledger.Transaction),
      Ledger.ledgerAppend s w a k r = .ok (s', t) → Ledger.isDebit k = true →
      0 ≤ Ledger.balance s' w ∧
      ∀ v, v ≠ w → Ledger.balance s' v = Ledger.balance s v) ∧
    (∀ s a b okb s' p, Ledger.purchase s a b okb = .ok (s', p) →
      (∀ v, 0 ≤ Ledger.balance s v) → ∀ v, 0 ≤ Ledger.balance s' v) ∧
    (∀ s code st okb s' t, Ledger.redeem s code st okb = .ok (s', t) →
      (∀ c ∈ s.codes, 0 ≤ c.amount) →
      (∀ v, 0 ≤ Ledger.balance s v) → ∀ v, 0 ≤ Ledger.balance s' v) ∧
    (∀ s pid okb s' t, Ledger.refund s pid okb = .ok (s', t) →
      (∀ q ∈ s.purchases, 0 ≤ q.price_at_purchase) →
      (∀ v, 0 ≤ Ledger.balance s v) → ∀ v, 0 ≤ Ledger.balance s' v) ∧
    (∀ s actor w amt okb s' t, Ledger.deposit s actor w amt okb = .ok (s', t) →
      0 ≤ amt → (∀ v, 0 ≤ Ledger.balance s v) → ∀ v, 0 ≤ Ledger.balance s' v) := by
  refine ⟨?_, ?_, ?_, ?_, ?_, ?_⟩
  · intro s w a k r hdk hlt
    unfold Ledger.ledgerAppend
    rw [if_pos ⟨hdk, hlt⟩]
  · intro s w a k r s' t h hdk
    obtain ⟨-, -, hno⟩ := Ledger.ledgerAppend_ok h
    have hb := Ledger.balance_after_append h
    constructor
    · rw [hb w]
      simpa using hno hdk
    · intro v hv
      rw [hb v, if_neg (fun hwv => hv hwv.symm), add_zero]
  · intro s a b okb s' p h hpos v
    obtain ⟨-, -, -, -, -, -, ⟨wal, -, htx, hge⟩, -⟩ := Ledger.purchase_ok h
    rw [Ledger.balance_tx_append htx v]
    by_cases hwv : wal.id = v
    · subst hwv; simpa using hge
    · simp only [hwv, if_false, add_zero]
      exact hpos v
  · intro s code st okb s' t h hcodes hpos v
    obtain ⟨c, wal, hfind, -, -, -, ht, htx, -⟩ := Ledger.redeem_ok h
    have hca : 0 ≤ c.amount := hcodes c (List.mem_of_find?_eq_some hfind)
    rw [Ledger.balance_tx_append htx v, ht]
    by_cases hwv : wal.id = v
    · simp only [hwv, if_pos rfl]
      exact add_nonneg (hpos v) hca
    · simp only [hwv, if_false, add_zero]
      exact hpos v
  · intro s pid okb s' t h hprices hpos v
    obtain ⟨p, wal, hfind, -, -, -, ht, htx, -⟩ := Ledger.refund_ok h
    have hpa : 0 ≤ p.price_at_purchase := hprices p (List.mem_of_find?_eq_some hfind)
    rw [Ledger.balance_tx_append htx v, ht]
    by_cases hwv : wal.id = v
    · simp only [hwv, if_pos rfl]
      exact add_nonneg (hpos v) hpa
    · simp only [hwv, if_false, add_zero]
      exact hpos v
  · intro s actor w amt okb s' t h hamt hpos v
    obtain ⟨-, ht, htx, -⟩ := Ledger.deposit_ok h
    rw [Ledger.balance_tx_append htx v, ht]
    by_cases hwv : w = v
    · simp only [hwv, if_pos rfl]
      exact add_nonneg (hpos v) hamt
    · simp only [hwv, if_false, add_zero]
      exact hpos v

/-- Closed witness for `debit_guard_nonneg_balance`: on `sampleState`
(balance 500 in wallet 1), a purchase debit of 501 is rejected with
`InsufficientFunds`. -/
theorem debit_guard_nonneg_balance_witness :
    Ledger.ledgerAppend sampleState 1 (-501) .purchase none =
      .error .InsufficientFunds :=
  debit_guard_nonneg_balance.1 sampleState 1 (-501) .purchase none
    (by decide) (by decide)

/-- C3: the price lock — a successful purchase in a state that already has
a prior non-refunded Purchase of the course records that first purchase's
`price_at_purchase`; only when no prior non-refunded Purchase of the
course exists does the purchase use the course's current listed price; and
changing a course's listed price (`setPrice`) does not disturb which prior
purchase the lock reads. -/
theorem purchase_price_lock :
    (∀ s a b okb s' p q, Ledger.purchase s a b okb = .ok (s', p) →
      Ledger.priorCoursePurchase s b = some q →
      p.price_at_purchase = q.price_at_purchase) ∧
    (∀ s a b okb s' p, Ledger.purchase s a b okb = .ok (s', p) →
      Ledger.priorCoursePurchase s b = none →
      Ledger.listedPrice s b = some p.price_at_purchase) ∧
    (∀ s c n b, Ledger.priorCoursePurchase (Ledger.setPrice s c n) b =
      Ledger.priorCoursePurchase s b) := by
  refine ⟨?_, ?_, fun s c n b => rfl⟩
  · intro s a b okb s' p q h hq
    obtain ⟨-, -, heff, -⟩ := Ledger.purchase_ok h
    unfold Ledger.effectivePrice at heff
    rw [hq] at heff
    simpa using heff.symm
  · intro s a b okb s' p h hnone
    obtain ⟨-, -, heff, -⟩ := Ledger.purchase_ok h
    unfold Ledger.effectivePrice at heff
    rw [hnone] at heff
    exact heff




/-- Closed witness for `purchase_price_lock`: in `lockState` the course's
listed price was raised to 150, yet student 2's purchase is recorded at
the first purchase's locked price 100. -/
theorem purchase_price_lock_witness :
    Ledger.purchase lockState 2 1 true = .ok (lockStateAfter, ⟨1, 2, 1, 3, 100, 3⟩) ∧
    (⟨1, 2, 1, 3, 100, 3⟩ : Ledger.Purchase).price_at_purchase =
      (⟨0, 1, 1, 1, 100, 1⟩ : Ledger.Purchase).price_at_purchase :=
  ⟨by rfl,
   purchase_price_lock.1 lockState 2 1 true lockStateAfter ⟨1, 2, 1, 3, 100, 3⟩
     ⟨0, 1, 1, 1, 100, 1⟩ (by rfl) (by decide)⟩

namespace Ledger

lemma redeem_code_not_found {s : State} {code : String} {st : Nat} {okb : Bool}
    (hfind : s.codes.find? (fun c => c.code = code) = none) :
    redeem s code st okb = .error .CodeNotFound := by
  unfold redeem
  rw [hfind]

lemma redeem_code_used {s : State} {code : String} {st : Nat} {okb : Bool}
    {c : RechargeCode} (hfind : s.codes.find? (fun c => c.code = code) = some c)
    (hused : c.status = .used) :
    redeem s code st okb = .error .CodeAlreadyUsed := by
  unfold redeem
  rw [hfind]
  simp [hused]

lemma find?_markUsed {codes : List RechargeCode} {code : String} (st tnow : Nat)
    {c : RechargeCode}
    (hfind : codes.find? (fun x => x.code = code) = some c) :
    (markUsed codes code st tnow).find? (fun x => x.code = code) =
      some { c with status := .used, used_by := some st, used_at := some tnow } := by
  unfold markUsed
  rw [List.find?_map]
  have hpf : ((fun x : RechargeCode => decide (x.code = code)) ∘
      (fun c0 : RechargeCode =>
        if c0.code = code then
          { c0 with status := .used, used_by := some st, used_at := some tnow }
        else c0)) = (fun x : RechargeCode => decide (x.code = code)) := by
    funext x
    by_cases hx : x.code = code <;> simp [Function.comp, hx]
  rw [hpf, hfind]
  have hc : c.code = code := by
    have := List.find?_some hfind
    simpa using this
  simp [hc]

lemma refund_already_refunded {s : State} {pid : Nat} {okb : Bool} {p : Purchase}
    (hfind : s.purchases.find? (fun x => x.id = pid) = some p)
    (href : isRefunded s pid = true) :
    refund s pid okb = .error .AlreadyRefunded := by
  unfold refund
  rw [hfind]
  simp [href]

lemma purchase_already {s : State} {a b : Nat} {okb : Bool}
    (hact : hasActivePurchase s a b = true) :
    purchase s a b okb = .error .AlreadyPurchased := by
  unfold purchase
  rw [if_pos hact]

end Ledger

/-- C4: redeeming fails with `CodeNotFound` when no code matches exactly and
with `CodeAlreadyUsed` when the matched code is already used; a successful
redeem finds an unused code, marks it used (status, used_by, used_at) and
appends exactly one `recharge_code` credit of the code's amount to the
student's wallet; after it, any further redeem of the same code fails with
`CodeAlreadyUsed` (and, failing, changes no wallet), so each code yields at
most one credit transaction ever. -/
theorem redeem_single_use :
    (∀ (s : Ledger.State) (code : String) (st : Nat) (okb : Bool),
      s.codes.find? (fun c => c.code = code) = none →
      Ledger.redeem s code st okb = .error .CodeNotFound) ∧
    (∀ (s : Ledger.State) (code : String) (st : Nat) (okb : Bool)
        (c : Ledger.RechargeCode),
      s.codes.find? (fun c => c.code = code) = some c → c.status = .used →
      Ledger.redeem s code st okb = .error .CodeAlreadyUsed) ∧
    (∀ (s : Ledger.State) (code : String) (st : Nat) (okb : Bool)
        (s' : Ledger.State) (t : Ledger.Transaction),
      Ledger.redeem s code st okb = .ok (s', t) →
      ∃ c wal, s.codes.find? (fun x => x.code = code) = some c ∧
        c.status = .unused ∧ Ledger.findWallet s st = some wal ∧
        t.kind = .rechargeCode ∧ t.amount = c.amount ∧ t.wallet_id = wal.id ∧
        s'.transactions = s.transactions ++ [t] ∧
        (∀ c' ∈ s'.codes, c'.code = code →
          c'.status = .used ∧ c'.used_by = some st ∧ c'.used_at = some s.now) ∧
        (∀ st2 okb2, Ledger.redeem s' code st2 okb2 = .error .CodeAlreadyUsed)) := by
  refine ⟨?_, ?_, ?_⟩
  · intro s code st okb h
    exact Ledger.redeem_code_not_found h
  · intro s code st okb c hfind hused
    exact Ledger.redeem_code_used hfind hused
  · intro s code st okb s' t h
    obtain ⟨c, wal, hfind, hunused, hwal, -, ht, htx, hcodes, -, -⟩ :=
      Ledger.redeem_ok h
    refine ⟨c, wal, hfind, hunused, hwal, ?_, ?_, ?_, htx, ?_, ?_⟩
    · rw [ht]
    · rw [ht]
    · rw [ht]
    · intro c' hmem hcode
      rw [hcodes] at hmem
      unfold Ledger.markUsed at hmem
      obtain ⟨x, hxmem, hxeq⟩ := List.mem_map.mp hmem
      by_cases hx : x.code = code
      · rw [if_pos hx] at hxeq
        subst hxeq
        exact ⟨rfl, rfl, rfl⟩
      · rw [if_neg hx] at hxeq
        subst hxeq
        exact absurd hcode hx
    · intro st2 okb2
      have hfind' : s'.codes.find? (fun x => x.code = code) =
          some { c with status := .used, used_by := some st, used_at := some s.now } := by
        rw [hcodes]
        exact Ledger.find?_markUsed st s.now hfind
      exact Ledger.redeem_code_used hfind' rfl



/-- Closed witness for `redeem_single_use`: an unknown code fails with
`CodeNotFound`, and a second redemption of an already-used code fails with
`CodeAlreadyUsed`. -/
theorem redeem_single_use_witness :
    Ledger.redeem sampleState "XYZ" 1 true = .error .CodeNotFound ∧
    Ledger.redeem usedCodeState "ABC" 2 true = .error .CodeAlreadyUsed :=
  ⟨redeem_single_use.1 sampleState "XYZ" 1 true (by rfl),
   redeem_single_use.2.1 usedCodeState "ABC" 2 true ⟨"ABC", 200, .used, some 1, some 0⟩
     (by rfl) (by rfl)⟩

/-- C5: when an active (non-refunded) Purchase for (student, course)
already exists, `purchase` fails with `AlreadyPurchased` (the erroring call
returns no new state, so no transaction and no Purchase row are created);
and a successful purchase preserves the invariant that at most one
non-refunded Purchase exists per (student, course) pair. -/
theorem purchase_no_double :
    (∀ (s : Ledger.State) (a b : Nat) (okb : Bool),
      Ledger.hasActivePurchase s a b = true →
      Ledger.purchase s a b okb = .error .AlreadyPurchased) ∧
    (∀ (s : Ledger.State) (a b : Nat) (okb : Bool) (s' : Ledger.State)
        (p : Ledger.Purchase),
      Ledger.purchase s a b okb = .ok (s', p) →
      Ledger.atMostOneActive s → Ledger.atMostOneActive s') := by
  refine ⟨fun s a b okb h => Ledger.purchase_already h, ?_⟩
  intro s a b okb s' p h hmono
  obtain ⟨hact, -, -, hsa, hsb, -, ⟨wal, -, htx, -⟩, hpur, -⟩ := Ledger.purchase_ok h
  have href : ∀ n, Ledger.isRefunded s' n = Ledger.isRefunded s n :=
    Ledger.isRefunded_append_nonrefund htx (fun hk => Ledger.TxKind.noConfusion hk)
  intro p1 h1 q1 h2 hr1 hr2 hsame1 hsame2
  rw [hpur] at h1 h2
  rw [href] at hr1 hr2
  rcases List.mem_append.mp h1 with h1o | h1n
  · rcases List.mem_append.mp h2 with h2o | h2n
    · exact hmono p1 h1o q1 h2o hr1 hr2 hsame1 hsame2
    · exfalso
      have hq1 : q1 = p := by simpa using h2n
      subst hq1
      have hps : p1.student_id = a := by rw [hsame1, hsa]
      have hpc : p1.course_id = b := by rw [hsame2, hsb]
      have := Ledger.hasActive_false_elim hact p1 h1o hps hpc
      rw [this] at hr1
      cases hr1
  · have hp1 : p1 = p := by simpa using h1n
    rcases List.mem_append.mp h2 with h2o | h2n
    · exfalso
      have hqs : q1.student_id = a := by rw [← hsame1, hp1, hsa]
      have hqc : q1.course_id = b := by rw [← hsame2, hp1, hsb]
      have := Ledger.hasActive_false_elim hact q1 h2o hqs hqc
      rw [this] at hr2
      cases hr2
    · have hq1 : q1 = p := by simpa using h2n
      rw [hp1, hq1]

/-- Closed witness for `purchase_no_double`: in `lockState`, student 1
already holds an active Purchase of course 1, so a repeat purchase fails
with `AlreadyPurchased`. -/
theorem purchase_no_double_witness :
    Ledger.purchase lockState 1 1 true = .error .AlreadyPurchased :=
  purchase_no_double.1 lockState 1 1 true (by rfl)

/-- C6: refunding succeeds at most once per purchase — a successful refund
appends exactly one offsetting `refund` credit of the purchase's locked
price, referencing the purchase, while leaving the Purchase rows (and, by
append-only construction, the original purchase transaction) untouched;
afterwards every further refund of the same purchase id fails with
`AlreadyRefunded` and, erroring, appends nothing. -/
theorem refund_at_most_once :
    (∀ (s : Ledger.State) (pid : Nat) (okb : Bool) (p : Ledger.Purchase),
      s.purchases.find? (fun x => x.id = pid) = some p →
      Ledger.isRefunded s pid = true →
      Ledger.refund s pid okb = .error .AlreadyRefunded) ∧
    (∀ (s : Ledger.State) (pid : Nat) (okb : Bool) (s' : Ledger.State)
        (t : Ledger.Transaction),
      Ledger.refund s pid okb = .ok (s', t) →
      ∃ p, s.purchases.find? (fun x => x.id = pid) = some p ∧
        t.kind = .refund ∧ t.reference = some pid ∧
        t.amount = p.price_at_purchase ∧
        s'.purchases = s.purchases ∧
        s'.transactions = s.transactions ++ [t] ∧
        (∀ okb2, Ledger.refund s' pid okb2 = .error .AlreadyRefunded)) := by
  refine ⟨fun s pid okb p hf hr => Ledger.refund_already_refunded hf hr, ?_⟩
  intro s pid okb s' t h
  obtain ⟨p, wal, hfind, -, -, -, ht, htx, hpur, -, -⟩ := Ledger.refund_ok h
  refine ⟨p, hfind, ?_, ?_, ?_, hpur, htx, ?_⟩
  · rw [ht]
  · rw [ht]
  · rw [ht]
  · intro okb2
    have hfind' : s'.purchases.find? (fun x => x.id = pid) = some p := by
      rw [hpur]; exact hfind
    have href' : Ledger.isRefunded s' pid = true := by
      unfold Ledger.isRefunded
      rw [htx, List.any_append]
      simp [ht]
    exact Ledger.refund_already_refunded hfind' href'



/-- Closed witness for `refund_at_most_once`: in `refundState` (purchase 0
already refunded) a second refund fails with `AlreadyRefunded`. -/
theorem refund_at_most_once_witness :
    Ledger.refund refundState 0 true = .error .AlreadyRefunded :=
  refund_at_most_once.1 refundState 0 true ⟨0, 1, 1, 1, 100, 1⟩ (by rfl) (by rfl)

/-- C7: a failing Audit Recorder write is never swallowed — with the audit
write failing, none of the mutating operations (purchase, redeem, manual
deposit) ever reports success to the caller; the five-step atomic unit
errors instead. -/
theorem audit_failure_escalates :
    (∀ (s : Ledger.State) (a b : Nat),
      ∃ e, Ledger.purchase s a b false = .error e) ∧
    (∀ (s : Ledger.State) (code : String) (st : Nat),
      ∃ e, Ledger.redeem s code st false = .error e) ∧
    (∀ (s : Ledger.State) (actor w : Nat) (amt : ℤ),
      ∃ e, Ledger.deposit s actor w amt false = .error e) := by
  refine ⟨?_, ?_, ?_⟩
  · intro s a b
    cases hres : Ledger.purchase s a b false with
    | error e => exact ⟨e, rfl⟩
    | ok v =>
      obtain ⟨s', p⟩ := v
      obtain ⟨-, haok, -⟩ := Ledger.purchase_ok hres
      cases haok
  · intro s code st
    cases hres : Ledger.redeem s code st false with
    | error e => exact ⟨e, rfl⟩
    | ok v =>
      obtain ⟨s', t⟩ := v
      obtain ⟨c, wal, -, -, -, haok, -⟩ := Ledger.redeem_ok hres
      cases haok
  · intro s actor w amt
    cases hres : Ledger.deposit s actor w amt false with
    | error e => exact ⟨e, rfl⟩
    | ok v =>
      obtain ⟨s', t⟩ := v
      obtain ⟨haok, -⟩ := Ledger.deposit_ok hres
      cases haok
